import Mathlib

/-!
Verification of the scene-registry / controller-synchronization core of the
threejs-lighting-sandbox repository.

The embedding mirrors, definition by definition:
  * `SceneManager` (src/src/utils/SceneManager.ts): two insertion-ordered
    string-keyed maps (`lights`, `objects`) with add/remove/get operations.
  * `LightController` (the unnamed source file, src/unnamed/part_000):
    per-type light counters, light metadata records, and the
    add/remove/update operations that mutate metadata and live entity in
    lockstep.
  * `ObjectController` (src/src/components/ObjectController/ObjectController.tsx):
    a single object counter shared by the four primitive kinds, a separate
    model counter, metadata records, and the add/remove/update operations,
    plus the GLTF model-upload path (the asynchronous decode performed by
    the external loader is represented by its observable outputs: the
    decoded scene's bounding-box center and size, passed as parameters).

JS numbers are embedded as exact rationals (ℚ); the mutating UI operations
under verification only copy slider values around, so no rounding behavior
is involved.  Euler angles / rotation fields are stored in units of π
radians so that constants such as `-Math.PI / 2` and `deg * (Math.PI / 180)`
stay exact.  Hex color literals from the source are written as lowercase
hex strings ("#888888" for 0x888888).  Purely visual effects (the THREE
scene graph, renders, light-helper `update()` refreshes, DOM nodes) carry
no verified state and are noted in comments where the source performs them.
-/

namespace Sandbox

/-- Claim-level THREE.Vector3 / THREE.Euler: three exact rational
components (Euler components are stored in units of π radians). -/
structure Vec3 where
  x : ℚ
  y : ℚ
  z : ℚ
deriving DecidableEq

/-- The light kinds of the LightController (`type LightType = 'ambient' |
'directional' | 'point' | 'spot'`). -/
inductive LightType
  | ambient
  | directional
  | point
  | spot
deriving DecidableEq

/-- The string tag of a light type, as used in generated identifiers. -/
def LightType.tag : LightType → String
  | .ambient => "ambient"
  | .directional => "directional"
  | .point => "point"
  | .spot => "spot"

/-- A live THREE.Light as the controllers observe it.  Every THREE light
inherits `position` and `castShadow` from Object3D (defaults (0,0,0) and
false) and carries `color`/`intensity`; `angle`/`penumbra` exist only on
spot lights (`anglePi` is the cone angle in units of π). -/
structure LiveLight where
  kind : LightType
  color : String
  intensity : ℚ
  position : Vec3
  castShadow : Bool
  anglePi : Option ℚ
  penumbra : Option ℚ
deriving DecidableEq

/-- A THREE.MeshStandardMaterial, restricted to the fields the controllers
touch. -/
structure Material where
  color : String
  roughness : ℚ
  metalness : ℚ
deriving DecidableEq

/-- What kind of live Object3D sits in the registry's `objects` map: a
primitive mesh (with its geometry tag and single material), the Group
returned by the GLTF loader for an imported model, or a light helper. -/
inductive ObjKind
  | mesh (geom : String) (material : Material)
  | group
  | lightHelper (source : LightType)
deriving DecidableEq

/-- A live THREE.Object3D: transform plus shadow flags plus its kind.
`rotationPi` is the Euler rotation in units of π. -/
structure Obj3D where
  position : Vec3
  rotationPi : Vec3
  scale : Vec3
  castShadow : Bool
  receiveShadow : Bool
  kind : ObjKind
deriving DecidableEq

/-- The identity transform defaults of a freshly constructed Object3D. -/
def Obj3D.default (k : ObjKind) : Obj3D :=
  { position := ⟨0, 0, 0⟩, rotationPi := ⟨0, 0, 0⟩, scale := ⟨1, 1, 1⟩,
    castShadow := false, receiveShadow := false, kind := k }

/-- LightController's `LightData` metadata record.  The `target` field of
the source interface is never assigned or read anywhere in the source and
is omitted; `helper` stores whether a helper reference was saved. -/
structure LightData where
  id : String
  type : LightType
  color : String
  intensity : ℚ
  position : Option Vec3 := none
  castShadow : Option Bool := none
  helper : Bool := false
deriving DecidableEq

/-- ObjectController's `ObjectData` metadata record. -/
structure ObjectData where
  id : String
  type : String
  position : Vec3
  rotationPi : Vec3
  scale : Vec3
  color : String
  roughness : ℚ
  metalness : ℚ
  isCustomModel : Bool := false
  modelUrl : Option String := none
deriving DecidableEq

/-! ### String-keyed maps

A JS `Map<string, V>` embedded as an insertion-ordered association list.
`set` overwrites in place when the key exists (JS Maps keep the original
position) and appends otherwise; `delete` removes the key's entry.  JS
Maps structurally cannot contain a key twice, so removing every occurrence
is an equivalent embedding of `delete`. -/

/-- Association-list embedding of `Map<string, V>`. -/
abbrev SMap (α : Type) : Type := List (String × α)

/-- `Map.get`: the value stored at a key, if any. -/
def SMap.get {α : Type} : SMap α → String → Option α
  | [], _ => none
  | (k', v) :: rest, k => if k' = k then some v else SMap.get rest k

/-- `Map.set`: overwrite in place, or append a new entry. -/
def SMap.set {α : Type} : SMap α → String → α → SMap α
  | [], k, v => [(k, v)]
  | (k', v') :: rest, k, v =>
    if k' = k then (k, v) :: rest else (k', v') :: SMap.set rest k v

/-- `Map.delete`: remove the entry stored at a key. -/
def SMap.del {α : Type} : SMap α → String → SMap α
  | [], _ => []
  | (k', v) :: rest, k =>
    if k' = k then SMap.del rest k else (k', v) :: SMap.del rest k

/-! ### SceneManager (src/src/utils/SceneManager.ts)

The camera, renderer, orbit controls, resize handling and the THREE scene
graph itself are purely visual collaborators; the verified state is the
pair of identifier-keyed maps.  `scene.add`/`scene.remove` calls made by
the operations below mutate only that visual scene graph. -/

/-- The registry state of SceneManager: its two identifier-keyed maps. -/
structure SceneManager where
  lights : SMap LiveLight
  objects : SMap Obj3D
deriving DecidableEq

/-- `addLight(id, light)`: stores the light in the map (overwriting any
entry at `id`), adds it to the visual scene, and returns it. -/
def SceneManager.addLight (s : SceneManager) (id : String) (light : LiveLight) :
    SceneManager × LiveLight :=
  ({ s with lights := s.lights.set id light }, light)

/-- `removeLight(id)`: removes the entry and returns true when present;
returns false and changes nothing otherwise. -/
def SceneManager.removeLight (s : SceneManager) (id : String) :
    SceneManager × Bool :=
  match s.lights.get id with
  | some _ => ({ s with lights := s.lights.del id }, true)
  | none => (s, false)

/-- `getLight(id)`. -/
def SceneManager.getLight (s : SceneManager) (id : String) : Option LiveLight :=
  s.lights.get id

/-- `addObject(id, object)`: same contract as `addLight` on the objects map. -/
def SceneManager.addObject (s : SceneManager) (id : String) (o : Obj3D) :
    SceneManager × Obj3D :=
  ({ s with objects := s.objects.set id o }, o)

/-- `removeObject(id)`: same contract as `removeLight` on the objects map. -/
def SceneManager.removeObject (s : SceneManager) (id : String) :
    SceneManager × Bool :=
  match s.objects.get id with
  | some _ => ({ s with objects := s.objects.del id }, true)
  | none => (s, false)

/-- `getObject(id)`. -/
def SceneManager.getObject (s : SceneManager) (id : String) : Option Obj3D :=
  s.objects.get id

/-- The default ambient light installed by `setupDefaultLighting`
(`new THREE.AmbientLight(0x404040, 0.5)`). -/
def defaultAmbient : LiveLight :=
  { kind := .ambient, color := "#404040", intensity := 1/2,
    position := ⟨0, 0, 0⟩, castShadow := false, anglePi := none, penumbra := none }

/-- The default box installed by `setupDefaultObjects`. -/
def defaultBox : Obj3D :=
  { position := ⟨0, 1/2, 0⟩, rotationPi := ⟨0, 0, 0⟩, scale := ⟨1, 1, 1⟩,
    castShadow := true, receiveShadow := true,
    kind := .mesh "box" { color := "#888888", roughness := 1/2, metalness := 1/2 } }

/-- The default ground plane installed by `setupDefaultObjects`
(`plane.rotation.x = -Math.PI / 2`, i.e. -1/2 in units of π). -/
def defaultPlane : Obj3D :=
  { position := ⟨0, 0, 0⟩, rotationPi := ⟨-(1/2), 0, 0⟩, scale := ⟨1, 1, 1⟩,
    castShadow := false, receiveShadow := true,
    kind := .mesh "plane" { color := "#aaaaaa", roughness := 4/5, metalness := 1/5 } }

/-- The registry right after `SceneManager.init()` (grid and axes helpers
are added to the visual scene only, not to the maps). -/
def SceneManager.initState : SceneManager :=
  let s0 : SceneManager := { lights := [], objects := [] }
  let s1 := (s0.addLight "ambient_default" defaultAmbient).1
  let s2 := (s1.addObject "box_default" defaultBox).1
  (s2.addObject "plane_default" defaultPlane).1

/-! ### Generated identifiers -/

/-- A generated identifier: the JS template literal
`` `${tag}_${count}` `` (JS renders an integer in decimal, i.e. `Nat.repr`). -/
def mkId (tag : String) (k : Nat) : String :=
  tag ++ "_" ++ Nat.repr k

/-- A light identifier, e.g. `"point_3"`. -/
def lightId (t : LightType) (k : Nat) : String :=
  mkId t.tag k

/-! ### Combined application state

`App` wires one SceneManager, one LightController and one
ObjectController together; the controllers hold their own metadata maps
and counters and mutate the manager through its methods.  The
`lightCounter` structure embeds the controller's
`Map<LightType, number>` initialized with all four types at 0. -/

/-- LightController's `lightCounter` map. -/
structure LightCounter where
  ambient : Nat := 0
  directional : Nat := 0
  point : Nat := 0
  spot : Nat := 0
deriving DecidableEq

/-- `lightCounter.get(type)` (the map always holds all four keys). -/
def LightCounter.get (c : LightCounter) : LightType → Nat
  | .ambient => c.ambient
  | .directional => c.directional
  | .point => c.point
  | .spot => c.spot

/-- `lightCounter.set(type, count)`. -/
def LightCounter.set (c : LightCounter) : LightType → Nat → LightCounter
  | .ambient, n => { c with ambient := n }
  | .directional, n => { c with directional := n }
  | .point, n => { c with point := n }
  | .spot, n => { c with spot := n }

/-- The combined mutable state of the application: the SceneManager's
registry, the LightController's metadata map and counters, the
ObjectController's metadata map and counters, and a ghost log of the URLs
released through `URL.revokeObjectURL` (newest last). -/
structure AppState where
  sm : SceneManager
  lights : SMap LightData
  lightCounter : LightCounter
  objects : SMap ObjectData
  objectCounter : Nat
  modelCounter : Nat
  revokedUrls : List String
deriving DecidableEq

/-- The application state right after `App`'s `init()`: the manager holds
its defaults, both controllers start with empty maps and zero counters. -/
def initialState : AppState :=
  { sm := SceneManager.initState, lights := [], lightCounter := {},
    objects := [], objectCounter := 0, modelCounter := 0, revokedUrls := [] }

/-! ### LightController (src/unnamed/part_000) -/

namespace LightController

/-- The live light constructed by `addLight`'s switch for each type
(colors default to white 0xffffff, intensity 1; directional/spot get
`castShadow = true`; spot gets `angle = Math.PI / 6` and `penumbra = 0.2`;
point and ambient keep Object3D's default `castShadow = false`). -/
def newLight : LightType → LiveLight
  | .ambient =>
    { kind := .ambient, color := "#ffffff", intensity := 1,
      position := ⟨0, 0, 0⟩, castShadow := false, anglePi := none, penumbra := none }
  | .directional =>
    { kind := .directional, color := "#ffffff", intensity := 1,
      position := ⟨5, 5, 5⟩, castShadow := true, anglePi := none, penumbra := none }
  | .point =>
    { kind := .point, color := "#ffffff", intensity := 1,
      position := ⟨2, 2, 2⟩, castShadow := false, anglePi := none, penumbra := none }
  | .spot =>
    { kind := .spot, color := "#ffffff", intensity := 1,
      position := ⟨2, 5, 2⟩, castShadow := true, anglePi := some (1/6), penumbra := some (1/5) }

/-- The metadata record built by `addLight` for each type: the base record
`{ id, type, color: '#ffffff', intensity: 1 }` plus the per-type
`position`/`castShadow`/`helper` assignments of the switch. -/
def newLightData (t : LightType) (id : String) : LightData :=
  match t with
  | .ambient => { id := id, type := .ambient, color := "#ffffff", intensity := 1 }
  | .directional =>
    { id := id, type := .directional, color := "#ffffff", intensity := 1,
      position := some ⟨5, 5, 5⟩, castShadow := some true, helper := true }
  | .point =>
    { id := id, type := .point, color := "#ffffff", intensity := 1,
      position := some ⟨2, 2, 2⟩, helper := true }
  | .spot =>
    { id := id, type := .spot, color := "#ffffff", intensity := 1,
      position := some ⟨2, 5, 2⟩, castShadow := some true, helper := true }

/-- `addLight(type)`: bump the per-type counter, build the id
`` `${type}_${count}` ``, register a helper object under
`` `${id}_helper` `` for directional/point/spot, register the light, and
store the metadata record.  (`renderUI()` only rebuilds DOM.) -/
def addLight (t : LightType) (st : AppState) : AppState :=
  let count := st.lightCounter.get t + 1
  let counter := st.lightCounter.set t count
  let id := lightId t count
  let sm1 :=
    match t with
    | .ambient => st.sm
    | _ => (st.sm.addObject (id ++ "_helper") (Obj3D.default (.lightHelper t))).1
  let sm2 := (sm1.addLight id (newLight t)).1
  { st with
    sm := sm2
    lightCounter := counter
    lights := st.lights.set id (newLightData t id) }

/-- `removeLight(id)`: when the metadata record exists, remove the helper
object (if a helper reference was stored), remove the registry light, and
delete the record; otherwise do nothing. -/
def removeLight (id : String) (st : AppState) : AppState :=
  match st.lights.get id with
  | none => st
  | some md =>
    let sm1 := if md.helper then (st.sm.removeObject (id ++ "_helper")).1 else st.sm
    let sm2 := (sm1.removeLight id).1
    { st with sm := sm2, lights := st.lights.del id }

/-- `updateLightColor(id, color)`: when both the registry light and the
metadata record exist, set both colors.  (The `'color' in light` narrowing
holds for every THREE light; `helper.update()` is a visual refresh.) -/
def updateLightColor (id : String) (color : String) (st : AppState) : AppState :=
  match st.sm.getLight id, st.lights.get id with
  | some light, some md =>
    { st with
      sm := { st.sm with lights := st.sm.lights.set id { light with color := color } }
      lights := st.lights.set id { md with color := color } }
  | _, _ => st

/-- `updateLightIntensity(id, intensity)`: when both exist, set both
intensities. -/
def updateLightIntensity (id : String) (v : ℚ) (st : AppState) : AppState :=
  match st.sm.getLight id, st.lights.get id with
  | some light, some md =>
    { st with
      sm := { st.sm with lights := st.sm.lights.set id { light with intensity := v } }
      lights := st.lights.set id { md with intensity := v } }
  | _, _ => st

/-- `updateLightPosition(id, position)`: when both exist, copy the vector
into the live light and store a clone in the metadata.  (The
`'position' in light` narrowing holds for every THREE light, which
inherits `position` from Object3D; `helper.update()` is visual.) -/
def updateLightPosition (id : String) (p : Vec3) (st : AppState) : AppState :=
  match st.sm.getLight id, st.lights.get id with
  | some light, some md =>
    { st with
      sm := { st.sm with lights := st.sm.lights.set id { light with position := p } }
      lights := st.lights.set id { md with position := some p } }
  | _, _ => st

/-- `updateShadowCasting(id, castShadow)`: when both exist and the live
light is a DirectionalLight or SpotLight, set both flags; all other kinds
fall through the instanceof check unchanged. -/
def updateShadowCasting (id : String) (b : Bool) (st : AppState) : AppState :=
  match st.sm.getLight id, st.lights.get id with
  | some light, some md =>
    if light.kind = .directional ∨ light.kind = .spot then
      { st with
        sm := { st.sm with lights := st.sm.lights.set id { light with castShadow := b } }
        lights := st.lights.set id { md with castShadow := some b } }
    else st
  | _, _ => st

end LightController

/-! ### ObjectController (src/src/components/ObjectController/ObjectController.tsx) -/

/-- The four primitive kinds offered by the controller's add buttons
(`objectTypes` in `renderUI`); `addObject`'s switch throws on any other
string, which the UI can never pass. -/
inductive PrimKind
  | box
  | sphere
  | cylinder
  | torus
deriving DecidableEq

/-- The type-tag string of a primitive kind. -/
def PrimKind.tag : PrimKind → String
  | .box => "box"
  | .sphere => "sphere"
  | .cylinder => "cylinder"
  | .torus => "torus"

namespace ObjectController

/-- `addObject(type)`: bump the shared object counter (one counter for all
primitive kinds), build `` `${type}_${this.objectCounter}` ``, create a
mesh at a randomized planar position (`rx`, `rz` stand for the two
`Math.random()` draws; the y ternary evaluates to 0.5 in both branches, as
in the source), register it, and store the metadata record. -/
def addObject (t : PrimKind) (rx rz : ℚ) (st : AppState) : AppState :=
  let counter := st.objectCounter + 1
  let id := mkId t.tag counter
  let position : Vec3 :=
    ⟨rx * 4 - 2, if t = .cylinder ∨ t = .box then 1/2 else 1/2, rz * 4 - 2⟩
  let mesh : Obj3D :=
    { position := position, rotationPi := ⟨0, 0, 0⟩, scale := ⟨1, 1, 1⟩,
      castShadow := true, receiveShadow := true,
      kind := .mesh t.tag { color := "#1a75ff", roughness := 1/2, metalness := 1/5 } }
  let sm1 := (st.sm.addObject id mesh).1
  let md : ObjectData :=
    { id := id, type := t.tag, position := position, rotationPi := ⟨0, 0, 0⟩,
      scale := ⟨1, 1, 1⟩, color := "#1a75ff", roughness := 1/2, metalness := 1/5 }
  { st with
    sm := sm1
    objects := st.objects.set id md
    objectCounter := counter }

/-- `removeObject(id)`: when the metadata record exists, remove the
registry object, delete the record, and — for an imported model that
stored a blob URL — release that URL via `URL.revokeObjectURL` (recorded
in the ghost log); otherwise do nothing. -/
def removeObject (id : String) (st : AppState) : AppState :=
  match st.objects.get id with
  | none => st
  | some md =>
    let sm1 := (st.sm.removeObject id).1
    let revoked :=
      match md.isCustomModel, md.modelUrl with
      | true, some u => st.revokedUrls ++ [u]
      | _, _ => st.revokedUrls
    { st with
      sm := sm1
      objects := st.objects.del id
      revokedUrls := revoked }

/-- `updateObjectColor(id, color)`: when both exist and the live object is
a Mesh, set the material color and the metadata color; non-mesh objects
(imported-model Groups, light helpers) fall through the instanceof check
unchanged. -/
def updateObjectColor (id : String) (color : String) (st : AppState) : AppState :=
  match st.sm.getObject id, st.objects.get id with
  | some obj, some md =>
    match obj.kind with
    | .mesh geom mat =>
      { st with
        sm := { st.sm with objects :=
          st.sm.objects.set id { obj with kind := .mesh geom { mat with color := color } } }
        objects := st.objects.set id { md with color := color } }
    | _ => st
  | _, _ => st

/-- `updateObjectRoughness(id, roughness)`: same shape as color. -/
def updateObjectRoughness (id : String) (v : ℚ) (st : AppState) : AppState :=
  match st.sm.getObject id, st.objects.get id with
  | some obj, some md =>
    match obj.kind with
    | .mesh geom mat =>
      { st with
        sm := { st.sm with objects :=
          st.sm.objects.set id { obj with kind := .mesh geom { mat with roughness := v } } }
        objects := st.objects.set id { md with roughness := v } }
    | _ => st
  | _, _ => st

/-- `updateObjectMetalness(id, metalness)`: same shape as color. -/
def updateObjectMetalness (id : String) (v : ℚ) (st : AppState) : AppState :=
  match st.sm.getObject id, st.objects.get id with
  | some obj, some md =>
    match obj.kind with
    | .mesh geom mat =>
      { st with
        sm := { st.sm with objects :=
          st.sm.objects.set id { obj with kind := .mesh geom { mat with metalness := v } } }
        objects := st.objects.set id { md with metalness := v } }
    | _ => st
  | _, _ => st

/-- `updateObjectPosition(id, position)`: when both exist, copy the vector
into the live object and store a clone in the metadata (any Object3D kind). -/
def updateObjectPosition (id : String) (p : Vec3) (st : AppState) : AppState :=
  match st.sm.getObject id, st.objects.get id with
  | some obj, some md =>
    { st with
      sm := { st.sm with objects := st.sm.objects.set id { obj with position := p } }
      objects := st.objects.set id { md with position := p } }
  | _, _ => st

/-- `updateObjectRotation(id, rotation)`: same shape as position. -/
def updateObjectRotation (id : String) (r : Vec3) (st : AppState) : AppState :=
  match st.sm.getObject id, st.objects.get id with
  | some obj, some md =>
    { st with
      sm := { st.sm with objects := st.sm.objects.set id { obj with rotationPi := r } }
      objects := st.objects.set id { md with rotationPi := r } }
  | _, _ => st

/-- `updateObjectScale(id, scale)`: same shape as position. -/
def updateObjectScale (id : String) (v : Vec3) (st : AppState) : AppState :=
  match st.sm.getObject id, st.objects.get id with
  | some obj, some md =>
    { st with
      sm := { st.sm with objects := st.sm.objects.set id { obj with scale := v } }
      objects := st.objects.set id { md with scale := v } }
  | _, _ => st

/-- The synchronous part of `handleModelUpload`: acquire the blob URL,
bump the model counter, and form `` `model_${this.modelCounter}` ``.  The
loading-indicator DOM node is visual only. -/
def modelUploadStart (st : AppState) : String × AppState :=
  let counter := st.modelCounter + 1
  (mkId "model" counter, { st with modelCounter := counter })

/-- The success callback of `gltfLoader.load`: the decoded `gltf.scene` is
a Group with identity transform whose contents determine the bounding-box
`center` and `size` computed by `Box3.setFromObject`.  The callback
positions the model (`-center`, rested on the ground plane), uniformly
rescales it when its largest dimension exceeds 5, registers it, and stores
a metadata record flagged `isCustomModel` with the blob URL.  (The shadow
`traverse` touches the group's child meshes, which sit below the granular
level of the registry maps.) -/
def onModelLoaded (id url : String) (center size : Vec3) (st : AppState) : AppState :=
  let maxDimension := max size.x (max size.y size.z)
  let pos : Vec3 := ⟨-center.x, -center.y + size.y / 2, -center.z⟩
  let scl : Vec3 :=
    if maxDimension > 5 then ⟨5 / maxDimension, 5 / maxDimension, 5 / maxDimension⟩
    else ⟨1, 1, 1⟩
  let model : Obj3D :=
    { position := pos, rotationPi := ⟨0, 0, 0⟩, scale := scl,
      castShadow := false, receiveShadow := false, kind := .group }
  let sm1 := (st.sm.addObject id model).1
  let md : ObjectData :=
    { id := id, type := "custom_model", position := ⟨0, 0, 0⟩,
      rotationPi := ⟨0, 0, 0⟩, scale := ⟨1, 1, 1⟩, color := "#ffffff",
      roughness := 1/2, metalness := 1/5, isCustomModel := true, modelUrl := some url }
  { st with sm := sm1, objects := st.objects.set id md }

/-- `handleModelUpload(file)` followed by a successful decode: the
synchronous part then the success callback.  (The progress and error
callbacks touch only the loading-indicator DOM node.) -/
def handleModelUpload (url : String) (center size : Vec3) (st : AppState) : AppState :=
  let start := modelUploadStart st
  onModelLoaded start.1 url center size start.2

end ObjectController

/-! ### UI events

The single-axis slider handlers build the new vector from the current
metadata record at event time (`objectData.position.x` etc. are live
property reads on the record object, which the map holds by reference and
which is never re-bound for a given id).  `axisSet` mirrors the
`index === 0 ? newValue : current.x` ternaries. -/

/-- The new vector a single-axis slider handler builds: the edited
component replaced, the other two taken from the current metadata. -/
def axisSet (axis : Nat) (v : ℚ) (w : Vec3) : Vec3 :=
  ⟨if axis = 0 then v else w.x, if axis = 1 then v else w.y, if axis = 2 then v else w.z⟩

namespace ObjectController

/-- A position-slider event from `createPositionControls`: when the
metadata record no longer exists the inner `updateObjectPosition` call is
a no-op regardless of the stale vector the closure builds. -/
def positionEdit (id : String) (axis : Nat) (v : ℚ) (st : AppState) : AppState :=
  match st.objects.get id with
  | some md => updateObjectPosition id (axisSet axis v md.position) st
  | none => st

/-- A rotation-slider event from `createRotationControls`: sliders are in
degrees and the handler multiplies by `Math.PI / 180`, i.e. `deg / 180` in
units of π. -/
def rotationEdit (id : String) (axis : Nat) (deg : ℚ) (st : AppState) : AppState :=
  match st.objects.get id with
  | some md => updateObjectRotation id (axisSet axis (deg / 180) md.rotationPi) st
  | none => st

/-- A scale-slider event from `createScaleControls`. -/
def scaleEdit (id : String) (axis : Nat) (v : ℚ) (st : AppState) : AppState :=
  match st.objects.get id with
  | some md => updateObjectScale id (axisSet axis v md.scale) st
  | none => st

end ObjectController

/-- The UI-triggered operations of the two controllers.  Light position
events carry the whole vector because `createPositionControls` builds it
from the panel's render-time snapshot rather than from live metadata. -/
inductive Event
  | addLight (t : LightType)
  | removeLight (id : String)
  | lightColorEdit (id : String) (c : String)
  | lightIntensityEdit (id : String) (v : ℚ)
  | lightPositionEdit (id : String) (p : Vec3)
  | lightShadowEdit (id : String) (b : Bool)
  | addObject (t : PrimKind) (rx rz : ℚ)
  | removeObject (id : String)
  | objColorEdit (id : String) (c : String)
  | objRoughnessEdit (id : String) (v : ℚ)
  | objMetalnessEdit (id : String) (v : ℚ)
  | objPositionEdit (id : String) (axis : Nat) (v : ℚ)
  | objRotationEdit (id : String) (axis : Nat) (deg : ℚ)
  | objScaleEdit (id : String) (axis : Nat) (v : ℚ)
  | modelUpload (url : String) (center size : Vec3)

/-- One event handler running to completion (the host is single-threaded;
handlers never interleave). -/
def step (e : Event) (st : AppState) : AppState :=
  match e with
  | .addLight t => LightController.addLight t st
  | .removeLight id => LightController.removeLight id st
  | .lightColorEdit id c => LightController.updateLightColor id c st
  | .lightIntensityEdit id v => LightController.updateLightIntensity id v st
  | .lightPositionEdit id p => LightController.updateLightPosition id p st
  | .lightShadowEdit id b => LightController.updateShadowCasting id b st
  | .addObject t rx rz => ObjectController.addObject t rx rz st
  | .removeObject id => ObjectController.removeObject id st
  | .objColorEdit id c => ObjectController.updateObjectColor id c st
  | .objRoughnessEdit id v => ObjectController.updateObjectRoughness id v st
  | .objMetalnessEdit id v => ObjectController.updateObjectMetalness id v st
  | .objPositionEdit id axis v => ObjectController.positionEdit id axis v st
  | .objRotationEdit id axis deg => ObjectController.rotationEdit id axis deg st
  | .objScaleEdit id axis v => ObjectController.scaleEdit id axis v st
  | .modelUpload url center size => ObjectController.onModelLoaded
      (ObjectController.modelUploadStart st).1 url center size
      (ObjectController.modelUploadStart st).2

/-- Run a sequence of events from a given state. -/
def runFrom (st : AppState) : List Event → AppState
  | [] => st
  | e :: evs => runFrom (step e st) evs

/-- Run a sequence of events from the post-`init()` state. -/
def runEvents (evs : List Event) : AppState :=
  runFrom initialState evs

/-! ### Map lemmas -/

namespace SMap

variable {α : Type}

theorem get_set_self (m : SMap α) (k : String) (v : α) : (m.set k v).get k = some v := by
  induction m with
  | nil => simp [SMap.set, SMap.get]
  | cons p rest ih =>
    obtain ⟨a, b⟩ := p
    by_cases h : a = k
    · simp [SMap.set, SMap.get, h]
    · simp [SMap.set, SMap.get, h, ih]

theorem get_set_ne (m : SMap α) (k k' : String) (v : α) (h : k' ≠ k) :
    (m.set k v).get k' = m.get k' := by
  have h' : ¬ k = k' := fun hh => h hh.symm
  induction m with
  | nil => simp [SMap.set, SMap.get, h']
  | cons p rest ih =>
    obtain ⟨a, b⟩ := p
    by_cases ha : a = k
    · subst ha
      simp [SMap.set, SMap.get, h']
    · simp [SMap.set, SMap.get, ha, ih]

theorem get_del_self (m : SMap α) (k : String) : (m.del k).get k = none := by
  induction m with
  | nil => simp [SMap.del, SMap.get]
  | cons p rest ih =>
    obtain ⟨a, b⟩ := p
    by_cases h : a = k
    · simp [SMap.del, SMap.get, h, ih]
    · simp [SMap.del, SMap.get, h, ih]

theorem get_del_ne (m : SMap α) (k k' : String) (h : k' ≠ k) :
    (m.del k).get k' = m.get k' := by
  induction m with
  | nil => simp [SMap.del, SMap.get]
  | cons p rest ih =>
    obtain ⟨a, b⟩ := p
    by_cases ha : a = k
    · subst ha
      have h' : ¬ a = k' := fun hh => h hh.symm
      simp [SMap.del, SMap.get, h', ih]
    · simp [SMap.del, SMap.get, ha, ih]

theorem mem_set (m : SMap α) (k : String) (v : α) (p : String × α)
    (h : p ∈ m.set k v) : p = (k, v) ∨ p ∈ m := by
  induction m with
  | nil =>
    simp only [SMap.set, List.mem_singleton] at h
    exact Or.inl h
  | cons q rest ih =>
    obtain ⟨a, b⟩ := q
    by_cases ha : a = k
    · simp only [SMap.set, ha, if_true] at h
      rcases List.mem_cons.mp h with h | h
      · exact Or.inl h
      · exact Or.inr (List.mem_cons_of_mem _ h)
    · simp only [SMap.set, ha, if_false] at h
      rcases List.mem_cons.mp h with h | h
      · exact Or.inr (List.mem_cons.mpr (Or.inl h))
      · rcases ih h with h' | h'
        · exact Or.inl h'
        · exact Or.inr (List.mem_cons_of_mem _ h')

theorem mem_del (m : SMap α) (k : String) (p : String × α)
    (h : p ∈ m.del k) : p ∈ m ∧ p.1 ≠ k := by
  induction m with
  | nil => simp [SMap.del] at h
  | cons q rest ih =>
    obtain ⟨a, b⟩ := q
    by_cases ha : a = k
    · simp only [SMap.del, ha, if_true] at h
      exact ⟨List.mem_cons_of_mem _ (ih h).1, (ih h).2⟩
    · simp only [SMap.del, ha, if_false] at h
      rcases List.mem_cons.mp h with h | h
      · refine ⟨List.mem_cons.mpr (Or.inl h), ?_⟩
        rw [h]
        exact ha
      · exact ⟨List.mem_cons_of_mem _ (ih h).1, (ih h).2⟩

theorem get_mem (m : SMap α) (k : String) (v : α) (h : m.get k = some v) :
    (k, v) ∈ m := by
  induction m with
  | nil => simp [SMap.get] at h
  | cons q rest ih =>
    obtain ⟨a, b⟩ := q
    by_cases ha : a = k
    · simp only [SMap.get, ha, if_true, Option.some.injEq] at h
      exact List.mem_cons.mpr (Or.inl (by rw [ha, h]))
    · simp only [SMap.get, ha, if_false] at h
      exact List.mem_cons_of_mem _ (ih h)

end SMap

/-! ### Decimal rendering is injective

The generated identifiers embed a counter through `Nat.repr`; the claims
about identifier uniqueness reduce to the injectivity of that rendering,
proved here from the fuel-based core implementation. -/

theorem toDigitsCore_shift (n : Nat) : ∀ (fuel : Nat) (ds : List Char), n < fuel →
    Nat.toDigitsCore 10 fuel n ds = Nat.toDigitsCore 10 fuel n [] ++ ds := by
  induction n using Nat.strong_induction_on with
  | _ n ih =>
    intro fuel ds hfuel
    match fuel with
    | f + 1 =>
      simp only [Nat.toDigitsCore]
      by_cases h : n / 10 = 0
      · simp [h]
      · simp only [h, if_false]
        have hn : 0 < n := by
          rcases Nat.eq_zero_or_pos n with h0 | h0
          · exact absurd (by simp [h0]) h
          · exact h0
        have hlt : n / 10 < n := Nat.div_lt_self hn (by norm_num)
        have hf : n / 10 < f := lt_of_lt_of_le hlt (Nat.lt_succ_iff.mp hfuel)
        rw [ih (n / 10) hlt f ((n % 10).digitChar :: ds) hf,
          ih (n / 10) hlt f [(n % 10).digitChar] hf, List.append_assoc]
        rfl

/-- Reads a digit string back into the number it denotes. -/
def decodeDigits (l : List Char) : Nat :=
  l.foldl (fun a c => a * 10 + (c.toNat - 48)) 0

theorem digitChar_val (m : Nat) (h : m < 10) : (Nat.digitChar m).toNat - 48 = m := by
  interval_cases m <;> rfl

theorem decode_toDigitsCore (n : Nat) : ∀ (fuel : Nat), n < fuel →
    decodeDigits (Nat.toDigitsCore 10 fuel n []) = n := by
  induction n using Nat.strong_induction_on with
  | _ n ih =>
    intro fuel hfuel
    match fuel with
    | f + 1 =>
      simp only [Nat.toDigitsCore]
      by_cases h : n / 10 = 0
      · have hlt : n < 10 := by omega
        have hmod : n % 10 = n := Nat.mod_eq_of_lt hlt
        simp [h, hmod, decodeDigits, digitChar_val n hlt]
      · have hn : 0 < n := by
          rcases Nat.eq_zero_or_pos n with h0 | h0
          · exact absurd (by simp [h0]) h
          · exact h0
        have hlt : n / 10 < n := Nat.div_lt_self hn (by norm_num)
        have hf : n / 10 < f := lt_of_lt_of_le hlt (Nat.lt_succ_iff.mp hfuel)
        simp only [h, if_false]
        rw [toDigitsCore_shift (n / 10) f _ hf]
        have hmod : n % 10 < 10 := Nat.mod_lt _ (by norm_num)
        simp only [decodeDigits] at *
        rw [List.foldl_append]
        simp only [List.foldl]
        rw [ih (n / 10) hlt f hf, digitChar_val _ hmod]
        omega

theorem natReprData_inj {m n : Nat} (h : (Nat.repr m).data = (Nat.repr n).data) :
    m = n := by
  have hd : Nat.toDigits 10 m = Nat.toDigits 10 n := h
  have h1 := decode_toDigitsCore m (m + 1) (Nat.lt_succ_self m)
  have h2 := decode_toDigitsCore n (n + 1) (Nat.lt_succ_self n)
  simp only [Nat.toDigits] at hd
  rw [← h1, ← h2, hd]

/-! ### Identifier injectivity -/

theorem mkId_data (tag : String) (k : Nat) :
    (mkId tag k).data = tag.data ++ '_' :: (Nat.repr k).data := by
  show (tag.data ++ ['_']) ++ (Nat.repr k).data = _
  simp

theorem mkId_inj_same (tag : String) {m n : Nat} (h : mkId tag m = mkId tag n) :
    m = n := by
  have h2 := congrArg String.data h
  rw [mkId_data, mkId_data] at h2
  have h3 := List.append_cancel_left h2
  exact natReprData_inj (by injection h3)

theorem mkId_ne (a b : String) (ca cb : Char) (ra rb : List Char)
    (ha : a.data = ca :: ra) (hb : b.data = cb :: rb) (hc : ca ≠ cb)
    (m n : Nat) : mkId a m ≠ mkId b n := by
  intro h
  have h2 := congrArg String.data h
  rw [mkId_data, mkId_data, ha, hb] at h2
  simp only [List.cons_append, List.cons.injEq] at h2
  exact hc h2.1

theorem lightId_inj {t u : LightType} {m n : Nat} (h : lightId t m = lightId u n) :
    t = u ∧ m = n := by
  cases t <;> cases u <;>
    first
      | exact ⟨rfl, mkId_inj_same _ h⟩
      | exact absurd h (mkId_ne _ _ _ _ _ _ rfl rfl (by decide) _ _)

/-- The first character of a generated identifier is its tag's first
character. -/
theorem mkId_head (a : String) (ca : Char) (ra : List Char)
    (ha : a.data = ca :: ra) (k : Nat) : (mkId a k).data.head? = some ca := by
  rw [mkId_data, ha]
  rfl

/-- The five identifier categories the ObjectController generates: the
four primitive tags sharing `objectCounter` and the `model` tag using
`modelCounter`. -/
inductive ObjCat
  | box
  | sphere
  | cylinder
  | torus
  | model
deriving DecidableEq

/-- The tag string of an object identifier category. -/
def ObjCat.tag : ObjCat → String
  | .box => "box"
  | .sphere => "sphere"
  | .cylinder => "cylinder"
  | .torus => "torus"
  | .model => "model"

/-- The category of a primitive kind. -/
def PrimKind.cat : PrimKind → ObjCat
  | .box => .box
  | .sphere => .sphere
  | .cylinder => .cylinder
  | .torus => .torus

/-- An object identifier, e.g. `"sphere_2"` or `"model_1"`. -/
def objId (c : ObjCat) (k : Nat) : String :=
  mkId c.tag k

theorem objId_inj {c d : ObjCat} {m n : Nat} (h : objId c m = objId d n) :
    c = d ∧ m = n := by
  cases c <;> cases d <;>
    first
      | exact ⟨rfl, mkId_inj_same _ h⟩
      | exact absurd h (mkId_ne _ _ _ _ _ _ rfl rfl (by decide) _ _)

/-! ### Registry contracts (claims C3, C10, C8) -/

/-- Claim C3 counterexample: the spec says `addLight(id, light)` fails when
`id` is already present, but `SceneManager.addLight` never rejects: adding
a second light under the taken identifier `"point_1"` succeeds and silently
replaces the stored entry. -/
theorem addLight_does_not_reject :
    let l1 : LiveLight :=
      { kind := .point, color := "#ffffff", intensity := 1,
        position := ⟨0, 0, 0⟩, castShadow := false, anglePi := none, penumbra := none }
    let l2 : LiveLight :=
      { kind := .point, color := "#ffffff", intensity := 2,
        position := ⟨0, 0, 0⟩, castShadow := false, anglePi := none, penumbra := none }
    let s1 := ((SceneManager.mk [] []).addLight "point_1" l1).1
    let s2 := (s1.addLight "point_1" l2).1
    s2.getLight "point_1" = some l2 ∧ l2 ≠ l1 ∧ s2.lights = [("point_1", l2)] := by
  decide

/-- Claim C3 (amended): `addLight(id, light)` on an identifier already
present among the current lights does not fail; it deterministically
overwrites the existing entry (last-writer-wins) and leaves every other
identifier untouched. -/
theorem addLight_overwrites (s : SceneManager) (id : String) (l0 l1 : LiveLight)
    (_h : s.getLight id = some l0) :
    (s.addLight id l1).1.getLight id = some l1 ∧
    ∀ id2, id2 ≠ id → (s.addLight id l1).1.getLight id2 = s.getLight id2 := by
  constructor
  · exact SMap.get_set_self s.lights id l1
  · intro id2 hne
    exact SMap.get_set_ne s.lights id id2 l1 hne

/-- Witness for `addLight_overwrites` at a concrete registry. -/
theorem addLight_overwrites_witness :
    let l1 : LiveLight :=
      { kind := .point, color := "#ffffff", intensity := 1,
        position := ⟨0, 0, 0⟩, castShadow := false, anglePi := none, penumbra := none }
    let l2 : LiveLight :=
      { kind := .point, color := "#ff0000", intensity := 3,
        position := ⟨0, 0, 0⟩, castShadow := false, anglePi := none, penumbra := none }
    let s : SceneManager := { lights := [("point_1", l1)], objects := [] }
    (s.addLight "point_1" l2).1.getLight "point_1" = some l2 ∧
    ∀ id2, id2 ≠ "point_1" → (s.addLight "point_1" l2).1.getLight id2 = s.getLight id2 :=
  addLight_overwrites _ "point_1" _ _ rfl

/-- Claim C10: for every id, including a taken one, the registry's
`addLight` deterministically overwrites: afterwards `getLight(id)` returns
the newly passed light, the previously stored entity is no longer
retrievable at that identifier, and all other identifiers are untouched;
the collision policy is last-writer-wins, not rejection. -/
theorem addLight_lastWriterWins (s : SceneManager) (id : String) (l : LiveLight) :
    (s.addLight id l).1.getLight id = some l ∧
    (∀ id2, id2 ≠ id → (s.addLight id l).1.getLight id2 = s.getLight id2) ∧
    ∀ l0, s.getLight id = some l0 → l0 ≠ l →
      (s.addLight id l).1.getLight id ≠ some l0 := by
  refine ⟨SMap.get_set_self s.lights id l, fun id2 hne => SMap.get_set_ne s.lights id id2 l hne, ?_⟩
  intro l0 _ hne hcontra
  have h1 : (s.addLight id l).1.getLight id = some l := SMap.get_set_self s.lights id l
  rw [h1] at hcontra
  exact hne (Option.some.inj hcontra).symm

/-- Witness for `addLight_lastWriterWins` at a concrete registry. -/
theorem addLight_lastWriterWins_witness :
    let l1 : LiveLight :=
      { kind := .directional, color := "#ffffff", intensity := 1,
        position := ⟨5, 5, 5⟩, castShadow := true, anglePi := none, penumbra := none }
    let l2 : LiveLight :=
      { kind := .directional, color := "#00ff00", intensity := 2,
        position := ⟨5, 5, 5⟩, castShadow := true, anglePi := none, penumbra := none }
    let s : SceneManager := { lights := [("directional_1", l1)], objects := [] }
    (s.addLight "directional_1" l2).1.getLight "directional_1" = some l2 ∧
    (∀ id2, id2 ≠ "directional_1" →
      (s.addLight "directional_1" l2).1.getLight id2 = s.getLight id2) ∧
    ∀ l0, s.getLight "directional_1" = some l0 → l0 ≠ l2 →
      (s.addLight "directional_1" l2).1.getLight "directional_1" ≠ some l0 :=
  addLight_lastWriterWins _ "directional_1" _

/-- Claim C8: `removeLight(id)` returns true exactly when an entry existed,
in which case the entry is removed and every other identifier is
untouched; with no entry it returns false and leaves the whole manager
unchanged; `removeObject` and `getObject` satisfy the same contract on the
objects map. -/
theorem remove_and_get_contract (s : SceneManager) (id : String) :
    ((s.removeLight id).2 = true ↔ s.getLight id ≠ none) ∧
    (s.getLight id = none → (s.removeLight id).1 = s) ∧
    (s.getLight id ≠ none → (s.removeLight id).1.getLight id = none) ∧
    (∀ id2, id2 ≠ id → (s.removeLight id).1.getLight id2 = s.getLight id2) ∧
    (s.getLight id = s.lights.get id) ∧
    ((s.removeObject id).2 = true ↔ s.getObject id ≠ none) ∧
    (s.getObject id = none → (s.removeObject id).1 = s) ∧
    (s.getObject id ≠ none → (s.removeObject id).1.getObject id = none) ∧
    (∀ id2, id2 ≠ id → (s.removeObject id).1.getObject id2 = s.getObject id2) ∧
    (s.getObject id = s.objects.get id) := by
  refine ⟨?_, ?_, ?_, ?_, rfl, ?_, ?_, ?_, ?_, rfl⟩
  · cases hl : s.lights.get id <;>
      simp [SceneManager.removeLight, SceneManager.getLight, hl]
  · intro h
    simp [SceneManager.removeLight, show s.lights.get id = none from h]
  · intro h
    cases hl : s.lights.get id with
    | none => exact absurd hl h
    | some l =>
      show ((s.removeLight id).1.lights.get id = none)
      simp [SceneManager.removeLight, hl, SMap.get_del_self]
  · intro id2 hne
    cases hl : s.lights.get id with
    | none => simp [SceneManager.removeLight, hl]
    | some l =>
      show ((s.removeLight id).1.lights.get id2 = s.lights.get id2)
      simp [SceneManager.removeLight, hl, SMap.get_del_ne s.lights id id2 hne]
  · cases ho : s.objects.get id <;>
      simp [SceneManager.removeObject, SceneManager.getObject, ho]
  · intro h
    simp [SceneManager.removeObject, show s.objects.get id = none from h]
  · intro h
    cases ho : s.objects.get id with
    | none => exact absurd ho h
    | some o =>
      show ((s.removeObject id).1.objects.get id = none)
      simp [SceneManager.removeObject, ho, SMap.get_del_self]
  · intro id2 hne
    cases ho : s.objects.get id with
    | none => simp [SceneManager.removeObject, ho]
    | some o =>
      show ((s.removeObject id).1.objects.get id2 = s.objects.get id2)
      simp [SceneManager.removeObject, ho, SMap.get_del_ne s.objects id id2 hne]

/-- Witness for `remove_and_get_contract` at a concrete registry. -/
theorem remove_and_get_contract_witness :
    let l1 : LiveLight :=
      { kind := .ambient, color := "#ffffff", intensity := 1,
        position := ⟨0, 0, 0⟩, castShadow := false, anglePi := none, penumbra := none }
    let s : SceneManager := { lights := [("ambient_1", l1)], objects := [] }
    ((s.removeLight "ambient_1").2 = true ↔ s.getLight "ambient_1" ≠ none) ∧
    (s.getLight "ambient_1" = none → (s.removeLight "ambient_1").1 = s) ∧
    (s.getLight "ambient_1" ≠ none →
      (s.removeLight "ambient_1").1.getLight "ambient_1" = none) ∧
    (∀ id2, id2 ≠ "ambient_1" →
      (s.removeLight "ambient_1").1.getLight id2 = s.getLight id2) ∧
    (s.getLight "ambient_1" = s.lights.get "ambient_1") ∧
    ((s.removeObject "ambient_1").2 = true ↔ s.getObject "ambient_1" ≠ none) ∧
    (s.getObject "ambient_1" = none → (s.removeObject "ambient_1").1 = s) ∧
    (s.getObject "ambient_1" ≠ none →
      (s.removeObject "ambient_1").1.getObject "ambient_1" = none) ∧
    (∀ id2, id2 ≠ "ambient_1" →
      (s.removeObject "ambient_1").1.getObject id2 = s.getObject id2) ∧
    (s.getObject "ambient_1" = s.objects.get "ambient_1") :=
  remove_and_get_contract _ "ambient_1"

/-! ### Intensity synchronization (claim C2) -/

/-- Claim C2: for every light identifier present in both the controller's
metadata map and the registry, and every intensity value v in [0, 5],
`updateLightIntensity` leaves the metadata intensity and the live light's
intensity both equal to v. -/
theorem updateLightIntensity_syncs (st : AppState) (id : String) (v : ℚ)
    (hmd : st.lights.get id ≠ none) (hlive : st.sm.getLight id ≠ none)
    (_h0 : 0 ≤ v) (_h5 : v ≤ 5) :
    ((LightController.updateLightIntensity id v st).lights.get id).map
        LightData.intensity = some v ∧
    ((LightController.updateLightIntensity id v st).sm.getLight id).map
        LiveLight.intensity = some v := by
  cases hl : st.sm.getLight id with
  | none => exact absurd hl hlive
  | some light =>
    cases hm : st.lights.get id with
    | none => exact absurd hm hmd
    | some md =>
      have hl2 : st.sm.lights.get id = some light := hl
      simp only [LightController.updateLightIntensity, hl, hm, hl2, SceneManager.getLight,
        SMap.get_set_self]
      exact ⟨rfl, rfl⟩

/-- Witness for `updateLightIntensity_syncs`: a freshly added point light
edited to intensity 2. -/
theorem updateLightIntensity_syncs_witness :
    let st := runEvents [Event.addLight .point]
    (st.lights.get "point_1" ≠ none) ∧ (st.sm.getLight "point_1" ≠ none) ∧
    (0 : ℚ) ≤ 2 ∧ (2 : ℚ) ≤ 5 ∧
    ((LightController.updateLightIntensity "point_1" 2 st).lights.get "point_1").map
        LightData.intensity = some 2 ∧
    ((LightController.updateLightIntensity "point_1" 2 st).sm.getLight "point_1").map
        LiveLight.intensity = some 2 := by
  refine ⟨by decide, by decide, by decide, by decide, ?_⟩
  exact updateLightIntensity_syncs (runEvents [Event.addLight .point]) "point_1" 2
    (by decide) (by decide) (by decide) (by decide)

/-! ### Stale-identifier edits are silent no-ops (claim C4) -/

/-- Which controller map an edit event targets. -/
inductive EditCat
  | light
  | obj
deriving DecidableEq

/-- The category and identifier an edit event targets (`none` for the
non-edit events: add, remove, upload). -/
def editTarget : Event → Option (EditCat × String)
  | .lightColorEdit id _ => some (.light, id)
  | .lightIntensityEdit id _ => some (.light, id)
  | .lightPositionEdit id _ => some (.light, id)
  | .lightShadowEdit id _ => some (.light, id)
  | .objColorEdit id _ => some (.obj, id)
  | .objRoughnessEdit id _ => some (.obj, id)
  | .objMetalnessEdit id _ => some (.obj, id)
  | .objPositionEdit id _ _ => some (.obj, id)
  | .objRotationEdit id _ _ => some (.obj, id)
  | .objScaleEdit id _ _ => some (.obj, id)
  | _ => none

/-- The stale-identifier condition: the targeted identifier is missing
from the controller's metadata map or from the registry map of its
category. -/
def stale (c : EditCat) (id : String) (st : AppState) : Prop :=
  match c with
  | .light => st.lights.get id = none ∨ st.sm.lights.get id = none
  | .obj => st.objects.get id = none ∨ st.sm.objects.get id = none

/-- Claim C4: every edit operation (color, intensity, position, shadow
flag on lights; position, rotation, scale, material on objects) targeting
an identifier missing from the controller's metadata map or from the
registry is a silent no-op: the handler terminates normally and returns
the state entirely unchanged. -/
theorem stale_edit_noop (e : Event) (st : AppState) (c : EditCat) (id : String)
    (ht : editTarget e = some (c, id)) (hs : stale c id st) : step e st = st := by
  cases e with
  | addLight t => simp [editTarget] at ht
  | removeLight i => simp [editTarget] at ht
  | addObject t rx rz => simp [editTarget] at ht
  | removeObject i => simp [editTarget] at ht
  | modelUpload u cen sz => simp [editTarget] at ht
  | lightColorEdit i cc =>
    obtain ⟨hc, hid⟩ := Prod.mk.injEq .. ▸ Option.some.inj ht
    subst hc
    rw [← hid] at hs
    rcases hs with h | h <;>
      cases h1 : st.sm.lights.get i <;> cases h2 : st.lights.get i <;>
        simp_all [step, LightController.updateLightColor, SceneManager.getLight]
  | lightIntensityEdit i v =>
    obtain ⟨hc, hid⟩ := Prod.mk.injEq .. ▸ Option.some.inj ht
    subst hc
    rw [← hid] at hs
    rcases hs with h | h <;>
      cases h1 : st.sm.lights.get i <;> cases h2 : st.lights.get i <;>
        simp_all [step, LightController.updateLightIntensity, SceneManager.getLight]
  | lightPositionEdit i p =>
    obtain ⟨hc, hid⟩ := Prod.mk.injEq .. ▸ Option.some.inj ht
    subst hc
    rw [← hid] at hs
    rcases hs with h | h <;>
      cases h1 : st.sm.lights.get i <;> cases h2 : st.lights.get i <;>
        simp_all [step, LightController.updateLightPosition, SceneManager.getLight]
  | lightShadowEdit i b =>
    obtain ⟨hc, hid⟩ := Prod.mk.injEq .. ▸ Option.some.inj ht
    subst hc
    rw [← hid] at hs
    rcases hs with h | h <;>
      cases h1 : st.sm.lights.get i <;> cases h2 : st.lights.get i <;>
        simp_all [step, LightController.updateShadowCasting, SceneManager.getLight]
  | objColorEdit i cc =>
    obtain ⟨hc, hid⟩ := Prod.mk.injEq .. ▸ Option.some.inj ht
    subst hc
    rw [← hid] at hs
    rcases hs with h | h <;>
      cases h1 : st.sm.objects.get i <;> cases h2 : st.objects.get i <;>
        simp_all [step, ObjectController.updateObjectColor, SceneManager.getObject]
  | objRoughnessEdit i v =>
    obtain ⟨hc, hid⟩ := Prod.mk.injEq .. ▸ Option.some.inj ht
    subst hc
    rw [← hid] at hs
    rcases hs with h | h <;>
      cases h1 : st.sm.objects.get i <;> cases h2 : st.objects.get i <;>
        simp_all [step, ObjectController.updateObjectRoughness, SceneManager.getObject]
  | objMetalnessEdit i v =>
    obtain ⟨hc, hid⟩ := Prod.mk.injEq .. ▸ Option.some.inj ht
    subst hc
    rw [← hid] at hs
    rcases hs with h | h <;>
      cases h1 : st.sm.objects.get i <;> cases h2 : st.objects.get i <;>
        simp_all [step, ObjectController.updateObjectMetalness, SceneManager.getObject]
  | objPositionEdit i axis v =>
    obtain ⟨hc, hid⟩ := Prod.mk.injEq .. ▸ Option.some.inj ht
    subst hc
    rw [← hid] at hs
    rcases hs with h | h <;>
      cases h1 : st.sm.objects.get i <;> cases h2 : st.objects.get i <;>
        simp_all [step, ObjectController.positionEdit,
          ObjectController.updateObjectPosition, SceneManager.getObject]
  | objRotationEdit i axis deg =>
    obtain ⟨hc, hid⟩ := Prod.mk.injEq .. ▸ Option.some.inj ht
    subst hc
    rw [← hid] at hs
    rcases hs with h | h <;>
      cases h1 : st.sm.objects.get i <;> cases h2 : st.objects.get i <;>
        simp_all [step, ObjectController.rotationEdit,
          ObjectController.updateObjectRotation, SceneManager.getObject]
  | objScaleEdit i axis v =>
    obtain ⟨hc, hid⟩ := Prod.mk.injEq .. ▸ Option.some.inj ht
    subst hc
    rw [← hid] at hs
    rcases hs with h | h <;>
      cases h1 : st.sm.objects.get i <;> cases h2 : st.objects.get i <;>
        simp_all [step, ObjectController.scaleEdit,
          ObjectController.updateObjectScale, SceneManager.getObject]

/-- Witness for `stale_edit_noop`: a color edit addressed to an identifier
that was never created leaves the initial state untouched. -/
theorem stale_edit_noop_witness :
    editTarget (Event.lightColorEdit "point_9" "#123456") = some (.light, "point_9") ∧
    stale .light "point_9" initialState ∧
    step (Event.lightColorEdit "point_9" "#123456") initialState = initialState :=
  ⟨rfl, Or.inl rfl, stale_edit_noop (Event.lightColorEdit "point_9" "#123456")
    initialState .light "point_9" rfl (Or.inl rfl)⟩

/-! ### Model resource release (claim C5) -/

/-- `removeObject` on an identifier absent from the metadata map changes
nothing. -/
theorem removeObject_not_found (st : AppState) (id : String)
    (h : st.objects.get id = none) : ObjectController.removeObject id st = st := by
  simp [ObjectController.removeObject, h]

/-- Claim C5: removing an imported model releases its blob URL exactly
once: the removal appends a single release of the stored URL to the revoke
log, a second removal attempt is a complete no-op (so no second release),
and removing a primitive releases nothing. -/
theorem removeObject_releases_once (st : AppState) (id : String) (md : ObjectData)
    (hmd : st.objects.get id = some md) :
    (∀ u, md.isCustomModel = true → md.modelUrl = some u →
      (ObjectController.removeObject id st).revokedUrls = st.revokedUrls ++ [u]) ∧
    (md.isCustomModel = false →
      (ObjectController.removeObject id st).revokedUrls = st.revokedUrls) ∧
    ObjectController.removeObject id (ObjectController.removeObject id st) =
      ObjectController.removeObject id st := by
  refine ⟨?_, ?_, ?_⟩
  · intro u hc hu
    simp [ObjectController.removeObject, hmd, hc, hu]
  · intro hc
    simp [ObjectController.removeObject, hmd, hc]
  · apply removeObject_not_found
    simp [ObjectController.removeObject, hmd, SMap.get_del_self]

/-- Witness for `removeObject_releases_once`: an uploaded model (small
enough to skip rescaling) is removed; the log gains exactly its URL and
the second removal is the identity. -/
theorem removeObject_releases_once_witness :
    let st := ObjectController.handleModelUpload "blob:a" ⟨0, 0, 0⟩ ⟨2, 2, 2⟩ initialState
    let md : ObjectData :=
      { id := "model_1", type := "custom_model", position := ⟨0, 0, 0⟩,
        rotationPi := ⟨0, 0, 0⟩, scale := ⟨1, 1, 1⟩, color := "#ffffff",
        roughness := 1/2, metalness := 1/5, isCustomModel := true,
        modelUrl := some "blob:a" }
    st.objects.get "model_1" = some md ∧
    (∀ u, md.isCustomModel = true → md.modelUrl = some u →
      (ObjectController.removeObject "model_1" st).revokedUrls = st.revokedUrls ++ [u]) ∧
    (md.isCustomModel = false →
      (ObjectController.removeObject "model_1" st).revokedUrls = st.revokedUrls) ∧
    ObjectController.removeObject "model_1" (ObjectController.removeObject "model_1" st) =
      ObjectController.removeObject "model_1" st :=
  ⟨rfl, removeObject_releases_once _ "model_1" _ rfl⟩

/-! ### Material edits on imported models (claim C6) -/

/-- Claim C6: material edits (color, roughness, metalness) addressed to an
imported-model identifier have no observable effect on the live entity or
the metadata record and raise no error: the live entry for an imported
model is the loader's Group, not a Mesh, so every material edit falls
through the instanceof check and returns the state unchanged; and the
model-upload path always registers its live entry as a Group with
`isCustomModel` metadata. -/
theorem material_edit_noop_on_model :
    (∀ (st : AppState) (id : String) (obj : Obj3D) (cc : String) (r mt : ℚ),
      st.sm.getObject id = some obj → obj.kind = .group →
      ObjectController.updateObjectColor id cc st = st ∧
      ObjectController.updateObjectRoughness id r st = st ∧
      ObjectController.updateObjectMetalness id mt st = st) ∧
    (∀ (st : AppState) (url : String) (center size : Vec3),
      ((ObjectController.handleModelUpload url center size st).sm.getObject
          (mkId "model" (st.modelCounter + 1))).map Obj3D.kind = some .group ∧
      ((ObjectController.handleModelUpload url center size st).objects.get
          (mkId "model" (st.modelCounter + 1))).map ObjectData.isCustomModel = some true) := by
  constructor
  · intro st id obj cc r mt hobj hkind
    have h1 : st.sm.objects.get id = some obj := hobj
    refine ⟨?_, ?_, ?_⟩ <;>
      cases h2 : st.objects.get id <;>
        simp [ObjectController.updateObjectColor, ObjectController.updateObjectRoughness,
          ObjectController.updateObjectMetalness, SceneManager.getObject, h1, h2, hkind]
  · intro st url center size
    constructor <;>
      simp [ObjectController.handleModelUpload, ObjectController.modelUploadStart,
        ObjectController.onModelLoaded, SceneManager.addObject, SceneManager.getObject,
        SMap.get_set_self]

/-- Witness for `material_edit_noop_on_model`: a registry whose `"model_1"`
entry is a Group absorbs all three material edits unchanged; an upload
onto the initial state registers a Group flagged as a custom model. -/
theorem material_edit_noop_on_model_witness :
    let obj := Obj3D.default .group
    let md : ObjectData :=
      { id := "model_1", type := "custom_model", position := ⟨0, 0, 0⟩,
        rotationPi := ⟨0, 0, 0⟩, scale := ⟨1, 1, 1⟩, color := "#ffffff",
        roughness := 1, metalness := 0, isCustomModel := true,
        modelUrl := some "blob:b" }
    let st : AppState :=
      { sm := { lights := [], objects := [("model_1", obj)] }, lights := [],
        lightCounter := {}, objects := [("model_1", md)], objectCounter := 0,
        modelCounter := 1, revokedUrls := [] }
    (st.sm.getObject "model_1" = some obj ∧ obj.kind = .group ∧
      ObjectController.updateObjectColor "model_1" "#ff0000" st = st ∧
      ObjectController.updateObjectRoughness "model_1" 1 st = st ∧
      ObjectController.updateObjectMetalness "model_1" 0 st = st) ∧
    ((ObjectController.handleModelUpload "blob:c" ⟨0, 0, 0⟩ ⟨1, 1, 1⟩
        initialState).sm.getObject (mkId "model" (initialState.modelCounter + 1))).map
        Obj3D.kind = some .group :=
  ⟨⟨rfl, rfl, material_edit_noop_on_model.1 _ "model_1" _ "#ff0000" 1 0 rfl rfl⟩,
    (material_edit_noop_on_model.2 initialState "blob:c" ⟨0, 0, 0⟩ ⟨1, 1, 1⟩).1⟩

/-! ### Single-axis scale edits (claim C9) -/

/-- Claim C9 counterexample: for an imported model whose live transform
was normalized at load time (here a 10-unit model rescaled to 1/2), the
live scale and the metadata scale disagree, and an X-axis scale edit to 3
rebuilds the whole vector from the metadata: the live Y component jumps
from 1/2 to 1, so the claim "the Y and Z scale components of both remain
unchanged" fails for an identifier present in both maps. -/
theorem scaleEdit_changes_live_y :
    let st := ObjectController.handleModelUpload "blob:m" ⟨0, 0, 0⟩ ⟨10, 10, 10⟩ initialState
    let st2 := step (.objScaleEdit "model_1" 0 3) st
    (st.objects.get "model_1").isSome ∧
    ((st.sm.getObject "model_1").map (fun o => o.scale.y) = some (1/2)) ∧
    ((st2.sm.getObject "model_1").map (fun o => o.scale.x) = some 3) ∧
    ((st2.sm.getObject "model_1").map (fun o => o.scale.y) = some 1) ∧
    (1 : ℚ) ≠ 1/2 := by
  refine ⟨rfl, ?_, rfl, rfl, by norm_num⟩
  have h : (ObjectController.handleModelUpload "blob:m" ⟨0, 0, 0⟩ ⟨10, 10, 10⟩
      initialState).sm.getObject "model_1" =
      some ⟨⟨-(0 : ℚ), -(0 : ℚ) + 10 / 2, -(0 : ℚ)⟩, ⟨0, 0, 0⟩,
        ⟨(5 : ℚ) / 10, (5 : ℚ) / 10, (5 : ℚ) / 10⟩, false, false, .group⟩ := rfl
  rw [h]
  norm_num

/-- Claim C9 (amended): a single-axis scale edit sets both the metadata
scale and the live scale to the metadata's vector with the edited
component replaced; the non-edited metadata components are unchanged, and
when the live scale agreed with the metadata beforehand (as for every
primitive) the non-edited live components are unchanged too. -/
theorem scaleEdit_spec (st : AppState) (id : String) (md : ObjectData) (obj : Obj3D)
    (axis : Nat) (v : ℚ) (hmd : st.objects.get id = some md)
    (hobj : st.sm.getObject id = some obj) :
    ((ObjectController.scaleEdit id axis v st).objects.get id).map ObjectData.scale =
      some (axisSet axis v md.scale) ∧
    ((ObjectController.scaleEdit id axis v st).sm.getObject id).map Obj3D.scale =
      some (axisSet axis v md.scale) ∧
    (obj.scale = md.scale → axis = 0 →
      ((ObjectController.scaleEdit id axis v st).sm.getObject id).map Obj3D.scale =
        some ⟨v, obj.scale.y, obj.scale.z⟩ ∧
      ((ObjectController.scaleEdit id axis v st).objects.get id).map ObjectData.scale =
        some ⟨v, md.scale.y, md.scale.z⟩) := by
  have h1 : st.sm.objects.get id = some obj := hobj
  have hset : ((ObjectController.scaleEdit id axis v st).objects.get id).map
      ObjectData.scale = some (axisSet axis v md.scale) := by
    simp [ObjectController.scaleEdit, ObjectController.updateObjectScale,
      SceneManager.getObject, hmd, h1, SMap.get_set_self]
  have hset2 : ((ObjectController.scaleEdit id axis v st).sm.getObject id).map
      Obj3D.scale = some (axisSet axis v md.scale) := by
    simp [ObjectController.scaleEdit, ObjectController.updateObjectScale,
      SceneManager.getObject, hmd, h1, SMap.get_set_self]
  refine ⟨hset, hset2, ?_⟩
  intro hsync haxis
  subst haxis
  have hx : axisSet 0 v md.scale = ⟨v, md.scale.y, md.scale.z⟩ := rfl
  refine ⟨?_, ?_⟩
  · rw [hset2, hx, hsync]
  · rw [hset, hx]

/-- Witness for `scaleEdit_spec`: a synchronized box entry scaled on the
X axis to 3 keeps Y and Z at 2 in both maps. -/
theorem scaleEdit_spec_witness :
    let obj : Obj3D :=
      { position := ⟨0, 1, 0⟩, rotationPi := ⟨0, 0, 0⟩, scale := ⟨2, 2, 2⟩,
        castShadow := true, receiveShadow := true,
        kind := .mesh "box" { color := "#1a75ff", roughness := 1, metalness := 0 } }
    let md : ObjectData :=
      { id := "box_1", type := "box", position := ⟨0, 1, 0⟩,
        rotationPi := ⟨0, 0, 0⟩, scale := ⟨2, 2, 2⟩, color := "#1a75ff",
        roughness := 1, metalness := 0 }
    let st : AppState :=
      { sm := { lights := [], objects := [("box_1", obj)] }, lights := [],
        lightCounter := {}, objects := [("box_1", md)], objectCounter := 1,
        modelCounter := 0, revokedUrls := [] }
    st.objects.get "box_1" = some md ∧ st.sm.getObject "box_1" = some obj ∧
    ((ObjectController.scaleEdit "box_1" 0 3 st).objects.get "box_1").map
        ObjectData.scale = some (axisSet 0 3 md.scale) ∧
    ((ObjectController.scaleEdit "box_1" 0 3 st).sm.getObject "box_1").map
        Obj3D.scale = some (axisSet 0 3 md.scale) ∧
    (obj.scale = md.scale → (0 : Nat) = 0 →
      ((ObjectController.scaleEdit "box_1" 0 3 st).sm.getObject "box_1").map
          Obj3D.scale = some ⟨3, obj.scale.y, obj.scale.z⟩ ∧
      ((ObjectController.scaleEdit "box_1" 0 3 st).objects.get "box_1").map
          ObjectData.scale = some ⟨3, md.scale.y, md.scale.z⟩) := by
  intro obj md st
  exact ⟨rfl, rfl, (scaleEdit_spec st "box_1" md obj 0 3 rfl rfl).1,
    (scaleEdit_spec st "box_1" md obj 0 3 rfl rfl).2.1,
    (scaleEdit_spec st "box_1" md obj 0 3 rfl rfl).2.2⟩

/-! ### Identifier generation is never-reusing (claim C1)

The run is instrumented with a ghost log of the identifiers each add
operation generates (newest first): light identifiers from
`LightController.addLight`, object identifiers from
`ObjectController.addObject` and from model uploads.  (Helper entries sit
in the registry under `` `${lightId}_helper` `` and are derived from their
owning light's identifier rather than generated by a counter.) -/

/-- The light identifier an event generates, if any. -/
def genLightIds (e : Event) (st : AppState) : List String :=
  match e with
  | .addLight t => [lightId t (st.lightCounter.get t + 1)]
  | _ => []

/-- The object identifier an event generates, if any. -/
def genObjIds (e : Event) (st : AppState) : List String :=
  match e with
  | .addObject t _ _ => [objId t.cat (st.objectCounter + 1)]
  | .modelUpload _ _ _ => [objId .model (st.modelCounter + 1)]
  | _ => []

/-- Run events while accumulating the ghost logs of generated light and
object identifiers (newest first). -/
def runLogged : List Event → AppState → List String → List String →
    AppState × List String × List String
  | [], st, ll, ol => (st, ll, ol)
  | e :: evs, st, ll, ol =>
      runLogged evs (step e st) (genLightIds e st ++ ll) (genObjIds e st ++ ol)

/-- The counter an object-identifier category draws from: the shared
`objectCounter` for the four primitive kinds, `modelCounter` for models. -/
def objCatCounter (st : AppState) : ObjCat → Nat
  | .model => st.modelCounter
  | _ => st.objectCounter

/-- Invariant tying the light log to the per-type counters: every logged
identifier was minted from some type's counter at a positive value not
exceeding the current counter, and the log has no duplicates. -/
def LightLogOK (st : AppState) (log : List String) : Prop :=
  (∀ id ∈ log, ∃ t k, 1 ≤ k ∧ k ≤ st.lightCounter.get t ∧ id = lightId t k) ∧
  log.Nodup

/-- Invariant tying the object log to the two object counters. -/
def ObjLogOK (st : AppState) (log : List String) : Prop :=
  (∀ id ∈ log, ∃ c k, 1 ≤ k ∧ k ≤ objCatCounter st c ∧ id = objId c k) ∧
  log.Nodup

theorem LightCounter.get_set (c : LightCounter) (t u : LightType) (n : Nat) :
    (c.set t n).get u = if u = t then n else c.get u := by
  cases t <;> cases u <;> simp [LightCounter.get, LightCounter.set]

/-- The tag of a primitive kind's category is the kind's tag. -/
theorem PrimKind.cat_tag (t : PrimKind) : t.cat.tag = t.tag := by
  cases t <;> rfl

/-- No step decreases a light counter. -/
theorem lightCounter_mono (e : Event) (st : AppState) (t : LightType) :
    st.lightCounter.get t ≤ (step e st).lightCounter.get t := by
  cases e <;>
    first
      | (rename_i u
         show st.lightCounter.get t ≤
           (st.lightCounter.set u (st.lightCounter.get u + 1)).get t
         rw [LightCounter.get_set]
         split
         · rename_i h
           subst h
           omega
         · exact Nat.le_refl _)
      | (simp only [step, LightController.removeLight, LightController.updateLightColor,
            LightController.updateLightIntensity, LightController.updateLightPosition,
            LightController.updateShadowCasting, ObjectController.removeObject,
            ObjectController.updateObjectColor, ObjectController.updateObjectRoughness,
            ObjectController.updateObjectMetalness, ObjectController.positionEdit,
            ObjectController.rotationEdit, ObjectController.scaleEdit,
            ObjectController.updateObjectPosition, ObjectController.updateObjectRotation,
            ObjectController.updateObjectScale, ObjectController.addObject,
            ObjectController.modelUploadStart, ObjectController.onModelLoaded]
         repeat' split
         all_goals exact Nat.le_refl _)

/-- No step decreases the object counter. -/
theorem objectCounter_mono (e : Event) (st : AppState) :
    st.objectCounter ≤ (step e st).objectCounter := by
  cases e <;>
    simp only [step, LightController.addLight, LightController.removeLight,
      LightController.updateLightColor, LightController.updateLightIntensity,
      LightController.updateLightPosition, LightController.updateShadowCasting,
      ObjectController.removeObject, ObjectController.updateObjectColor,
      ObjectController.updateObjectRoughness, ObjectController.updateObjectMetalness,
      ObjectController.positionEdit, ObjectController.rotationEdit,
      ObjectController.scaleEdit, ObjectController.updateObjectPosition,
      ObjectController.updateObjectRotation, ObjectController.updateObjectScale,
      ObjectController.addObject, ObjectController.modelUploadStart,
      ObjectController.onModelLoaded] <;>
    (repeat' split) <;>
    first
      | exact Nat.le_refl _
      | exact Nat.le_succ _

/-- No step decreases the model counter. -/
theorem modelCounter_mono (e : Event) (st : AppState) :
    st.modelCounter ≤ (step e st).modelCounter := by
  cases e <;>
    simp only [step, LightController.addLight, LightController.removeLight,
      LightController.updateLightColor, LightController.updateLightIntensity,
      LightController.updateLightPosition, LightController.updateShadowCasting,
      ObjectController.removeObject, ObjectController.updateObjectColor,
      ObjectController.updateObjectRoughness, ObjectController.updateObjectMetalness,
      ObjectController.positionEdit, ObjectController.rotationEdit,
      ObjectController.scaleEdit, ObjectController.updateObjectPosition,
      ObjectController.updateObjectRotation, ObjectController.updateObjectScale,
      ObjectController.addObject, ObjectController.modelUploadStart,
      ObjectController.onModelLoaded] <;>
    (repeat' split) <;>
    first
      | exact Nat.le_refl _
      | exact Nat.le_succ _

/-- One step preserves both log invariants. -/
theorem logOK_step (e : Event) (st : AppState) (ll ol : List String)
    (hl : LightLogOK st ll) (ho : ObjLogOK st ol) :
    LightLogOK (step e st) (genLightIds e st ++ ll) ∧
    ObjLogOK (step e st) (genObjIds e st ++ ol) := by
  obtain ⟨hlb, hln⟩ := hl
  obtain ⟨hob, hon⟩ := ho
  have hlmono : ∀ t, st.lightCounter.get t ≤ (step e st).lightCounter.get t :=
    lightCounter_mono e st
  have homono := objectCounter_mono e st
  have hmmono := modelCounter_mono e st
  have hobound : ∀ c, objCatCounter st c ≤ objCatCounter (step e st) c := by
    intro c
    cases c <;> simp only [objCatCounter] <;> assumption
  have hlold : ∀ id ∈ ll, ∃ t k, 1 ≤ k ∧ k ≤ (step e st).lightCounter.get t ∧
      id = lightId t k := by
    intro id hid
    obtain ⟨t, k, h1, h2, h3⟩ := hlb id hid
    exact ⟨t, k, h1, h2.trans (hlmono t), h3⟩
  have hoold : ∀ id ∈ ol, ∃ c k, 1 ≤ k ∧ k ≤ objCatCounter (step e st) c ∧
      id = objId c k := by
    intro id hid
    obtain ⟨c, k, h1, h2, h3⟩ := hob id hid
    exact ⟨c, k, h1, h2.trans (hobound c), h3⟩
  cases e with
  | addLight t =>
    refine ⟨⟨?_, ?_⟩, ⟨hoold, hon⟩⟩
    · intro id hid
      simp only [genLightIds, List.singleton_append, List.mem_cons] at hid
      rcases hid with hid | hid
      · refine ⟨t, st.lightCounter.get t + 1, by omega, ?_, hid⟩
        show _ ≤ (LightController.addLight t st).lightCounter.get t
        simp [LightController.addLight, LightCounter.get_set]
      · exact hlold id hid
    · simp only [genLightIds, List.singleton_append]
      refine List.nodup_cons.mpr ⟨?_, hln⟩
      intro hmem
      obtain ⟨u, k, h1, h2, h3⟩ := hlb _ hmem
      obtain ⟨ht, hk⟩ := lightId_inj h3
      subst ht
      omega
  | addObject t rx rz =>
    refine ⟨⟨hlold, hln⟩, ⟨?_, ?_⟩⟩
    · intro id hid
      simp only [genObjIds, List.singleton_append, List.mem_cons] at hid
      rcases hid with hid | hid
      · refine ⟨t.cat, st.objectCounter + 1, by omega, ?_, hid⟩
        show st.objectCounter + 1 ≤ objCatCounter (ObjectController.addObject t rx rz st) t.cat
        cases t <;> exact Nat.le_refl _
      · exact hoold id hid
    · simp only [genObjIds, List.singleton_append]
      refine List.nodup_cons.mpr ⟨?_, hon⟩
      intro hmem
      obtain ⟨c, k, h1, h2, h3⟩ := hob _ hmem
      obtain ⟨hc, hk⟩ := objId_inj h3
      subst hc
      subst hk
      revert h2
      cases t <;> simp [objCatCounter, PrimKind.cat]
  | modelUpload url cen sz =>
    refine ⟨⟨hlold, hln⟩, ⟨?_, ?_⟩⟩
    · intro id hid
      simp only [genObjIds, List.singleton_append, List.mem_cons] at hid
      rcases hid with hid | hid
      · refine ⟨.model, st.modelCounter + 1, by omega, ?_, hid⟩
        simp [objCatCounter, step, ObjectController.modelUploadStart,
          ObjectController.onModelLoaded]
      · exact hoold id hid
    · simp only [genObjIds, List.singleton_append]
      refine List.nodup_cons.mpr ⟨?_, hon⟩
      intro hmem
      obtain ⟨c, k, h1, h2, h3⟩ := hob _ hmem
      obtain ⟨hc, hk⟩ := objId_inj h3
      subst hc
      subst hk
      simp only [objCatCounter] at h2
      omega
  | removeLight i => exact ⟨⟨hlold, hln⟩, ⟨hoold, hon⟩⟩
  | lightColorEdit i c => exact ⟨⟨hlold, hln⟩, ⟨hoold, hon⟩⟩
  | lightIntensityEdit i v => exact ⟨⟨hlold, hln⟩, ⟨hoold, hon⟩⟩
  | lightPositionEdit i p => exact ⟨⟨hlold, hln⟩, ⟨hoold, hon⟩⟩
  | lightShadowEdit i b => exact ⟨⟨hlold, hln⟩, ⟨hoold, hon⟩⟩
  | removeObject i => exact ⟨⟨hlold, hln⟩, ⟨hoold, hon⟩⟩
  | objColorEdit i c => exact ⟨⟨hlold, hln⟩, ⟨hoold, hon⟩⟩
  | objRoughnessEdit i v => exact ⟨⟨hlold, hln⟩, ⟨hoold, hon⟩⟩
  | objMetalnessEdit i v => exact ⟨⟨hlold, hln⟩, ⟨hoold, hon⟩⟩
  | objPositionEdit i a v => exact ⟨⟨hlold, hln⟩, ⟨hoold, hon⟩⟩
  | objRotationEdit i a d => exact ⟨⟨hlold, hln⟩, ⟨hoold, hon⟩⟩
  | objScaleEdit i a v => exact ⟨⟨hlold, hln⟩, ⟨hoold, hon⟩⟩

/-- The log invariants hold along every logged run. -/
theorem runLogged_ok (evs : List Event) : ∀ (st : AppState) (ll ol : List String),
    LightLogOK st ll → ObjLogOK st ol →
    LightLogOK (runLogged evs st ll ol).1 (runLogged evs st ll ol).2.1 ∧
    ObjLogOK (runLogged evs st ll ol).1 (runLogged evs st ll ol).2.2 := by
  induction evs with
  | nil => exact fun st ll ol hl ho => ⟨hl, ho⟩
  | cons e evs ih =>
    intro st ll ol hl ho
    obtain ⟨hl2, ho2⟩ := logOK_step e st ll ol hl ho
    exact ih (step e st) _ _ hl2 ho2

/-- Claim C1 (amended): every identifier a light add generates is the
light's type tag followed by that type's private counter, and every
identifier an object add generates is its tag followed by the
ObjectController's counter for its category — a single counter shared by
the four primitive kinds plus a separate model counter, not a counter per
primitive kind.  In either category, identifiers are never reused within a
session: along every event sequence, each add yields an identifier
distinct from all previously generated identifiers of its category
(removal never frees an identifier, because counters never decrease). -/
theorem generated_ids_distinct (evs : List Event) :
    ((runLogged evs initialState [] []).2.1.Nodup ∧
      ∀ id ∈ (runLogged evs initialState [] []).2.1, ∃ t k, 1 ≤ k ∧ id = lightId t k) ∧
    ((runLogged evs initialState [] []).2.2.Nodup ∧
      ∀ id ∈ (runLogged evs initialState [] []).2.2, ∃ c k, 1 ≤ k ∧ id = objId c k) := by
  have h := runLogged_ok evs initialState [] []
    ⟨fun id hid => absurd hid (List.not_mem_nil id), List.nodup_nil⟩
    ⟨fun id hid => absurd hid (List.not_mem_nil id), List.nodup_nil⟩
  refine ⟨⟨h.1.2, ?_⟩, ⟨h.2.2, ?_⟩⟩
  · intro id hid
    obtain ⟨t, k, h1, _, h3⟩ := h.1.1 id hid
    exact ⟨t, k, h1, h3⟩
  · intro id hid
    obtain ⟨c, k, h1, _, h3⟩ := h.2.1 id hid
    exact ⟨c, k, h1, h3⟩

/-- Claim C1 counterexample: the object counter is not per-type.  Adding a
box and then the session's first sphere yields `"sphere_2"` — the shared
counter's value — not the `"sphere_1"` a per-type counter would produce,
and no `"sphere_1"` entity exists. -/
theorem object_ids_not_per_type :
    let r := runLogged [.addObject .box 0 0, .addObject .sphere 0 0] initialState [] []
    r.2.2 = ["sphere_2", "box_1"] ∧
    r.1.objects.get "sphere_2" ≠ none ∧
    r.1.objects.get "sphere_1" = none ∧
    "sphere_2" ≠ "sphere_1" := by
  decide

/-! ### Light kind invariant (claim C7)

The kind invariant of §3 of the spec is maintained jointly by the
creation defaults in `addLight`, the instanceof guard in
`updateShadowCasting`, and the UI itself: `createLightElement` renders
position controls only for panels whose record type is not ambient, so a
position edit can only ever be emitted for an identifier minted from a
non-ambient tag.  Since every generated light identifier starts with its
type's tag, the emittable position edits are exactly those whose target
does not start with the letter that begins "ambient". -/

/-- The first character of a light type's tag. -/
def LightType.headChar : LightType → Char
  | .ambient => 'a'
  | .directional => 'd'
  | .point => 'p'
  | .spot => 's'

theorem LightType.headChar_inj : ∀ t u : LightType, t.headChar = u.headChar → t = u := by
  intro t u h
  cases t <;> cases u <;> revert h <;> decide

theorem lightId_head (t : LightType) (k : Nat) :
    (lightId t k).data.head? = some t.headChar := by
  cases t <;> exact mkId_head _ _ _ rfl _

theorem newLightData_type (t : LightType) (id : String) :
    (LightController.newLightData t id).type = t := by
  cases t <;> rfl

theorem newLight_kind (t : LightType) : (LightController.newLight t).kind = t := by
  cases t <;> rfl

/-- Whether the UI can emit an event: position sliders exist only on the
panels of non-ambient records (`createLightElement`), whose identifiers
never start with 'a'; every other event is freely emittable. -/
def uiEmittable : Event → Bool
  | .lightPositionEdit id _ => id.data.head? != some 'a'
  | _ => true

/-- The per-kind shape invariant of a light metadata record: ambient
records carry no position and no shadow flag, directional and spot
records always carry a shadow flag, point records never do. -/
def kindInv (md : LightData) : Prop :=
  (md.type = .ambient → md.position = none ∧ md.castShadow = none) ∧
  ((md.type = .directional ∨ md.type = .spot) → md.castShadow ≠ none) ∧
  (md.type = .point → md.castShadow = none)

instance (md : LightData) : Decidable (kindInv md) := by
  unfold kindInv
  infer_instance

/-- The inductive invariant: every metadata record satisfies the kind
invariant, is keyed by an identifier starting with its type's tag letter,
and agrees in kind with the registry light stored under its key. -/
def LightInv (st : AppState) : Prop :=
  ∀ p ∈ st.lights, kindInv p.2 ∧
    p.1.data.head? = some p.2.type.headChar ∧
    ∀ l, st.sm.lights.get p.1 = some l → l.kind = p.2.type

theorem kindInv_newLightData (t : LightType) (id : String) :
    kindInv (LightController.newLightData t id) := by
  cases t <;> simp [LightController.newLightData, kindInv]

/-- What `addLight` does to the two light maps. -/
theorem addLight_state (t : LightType) (st : AppState) :
    (LightController.addLight t st).lights =
      st.lights.set (lightId t (st.lightCounter.get t + 1))
        (LightController.newLightData t (lightId t (st.lightCounter.get t + 1))) ∧
    (LightController.addLight t st).sm.lights =
      st.sm.lights.set (lightId t (st.lightCounter.get t + 1))
        (LightController.newLight t) := by
  cases t <;> exact ⟨rfl, rfl⟩

/-- Removing an object never touches the lights map. -/
theorem removeObject_lights (s : SceneManager) (id : String) :
    (s.removeObject id).1.lights = s.lights := by
  unfold SceneManager.removeObject
  split <;> rfl

/-- `removeLight` leaves every other key's entry in place. -/
theorem removeLight_get (s : SceneManager) (i x : String) (h : x ≠ i) :
    (s.removeLight i).1.lights.get x = s.lights.get x := by
  unfold SceneManager.removeLight
  split
  · exact SMap.get_del_ne s.lights i x h
  · rfl

/-- A step that changes neither light map preserves the invariant. -/
theorem lightInv_of_frame (st st2 : AppState)
    (hL : st2.lights = st.lights) (hS : st2.sm.lights = st.sm.lights)
    (hinv : LightInv st) : LightInv st2 := by
  intro p hp
  rw [hL] at hp
  obtain ⟨hk, hh, hc⟩ := hinv p hp
  refine ⟨hk, hh, ?_⟩
  intro l hl
  rw [hS] at hl
  exact hc l hl

theorem updateObjectColor_light_frame (i c : String) (st : AppState) :
    (ObjectController.updateObjectColor i c st).lights = st.lights ∧
    (ObjectController.updateObjectColor i c st).sm.lights = st.sm.lights := by
  unfold ObjectController.updateObjectColor
  (repeat' split) <;> exact ⟨rfl, rfl⟩

theorem updateObjectRoughness_light_frame (i : String) (v : ℚ) (st : AppState) :
    (ObjectController.updateObjectRoughness i v st).lights = st.lights ∧
    (ObjectController.updateObjectRoughness i v st).sm.lights = st.sm.lights := by
  unfold ObjectController.updateObjectRoughness
  (repeat' split) <;> exact ⟨rfl, rfl⟩

theorem updateObjectMetalness_light_frame (i : String) (v : ℚ) (st : AppState) :
    (ObjectController.updateObjectMetalness i v st).lights = st.lights ∧
    (ObjectController.updateObjectMetalness i v st).sm.lights = st.sm.lights := by
  unfold ObjectController.updateObjectMetalness
  (repeat' split) <;> exact ⟨rfl, rfl⟩

theorem positionEdit_light_frame (i : String) (a : Nat) (v : ℚ) (st : AppState) :
    (ObjectController.positionEdit i a v st).lights = st.lights ∧
    (ObjectController.positionEdit i a v st).sm.lights = st.sm.lights := by
  unfold ObjectController.positionEdit ObjectController.updateObjectPosition
  (repeat' split) <;> exact ⟨rfl, rfl⟩

theorem rotationEdit_light_frame (i : String) (a : Nat) (v : ℚ) (st : AppState) :
    (ObjectController.rotationEdit i a v st).lights = st.lights ∧
    (ObjectController.rotationEdit i a v st).sm.lights = st.sm.lights := by
  unfold ObjectController.rotationEdit ObjectController.updateObjectRotation
  (repeat' split) <;> exact ⟨rfl, rfl⟩

theorem scaleEdit_light_frame (i : String) (a : Nat) (v : ℚ) (st : AppState) :
    (ObjectController.scaleEdit i a v st).lights = st.lights ∧
    (ObjectController.scaleEdit i a v st).sm.lights = st.sm.lights := by
  unfold ObjectController.scaleEdit ObjectController.updateObjectScale
  (repeat' split) <;> exact ⟨rfl, rfl⟩

theorem removeObject_light_frame (i : String) (st : AppState) :
    (ObjectController.removeObject i st).lights = st.lights ∧
    (ObjectController.removeObject i st).sm.lights = st.sm.lights := by
  unfold ObjectController.removeObject
  split
  · exact ⟨rfl, rfl⟩
  · exact ⟨rfl, removeObject_lights _ _⟩

/-- One UI-emittable step preserves the light invariant. -/
theorem lightInv_step (e : Event) (st : AppState) (hui : uiEmittable e = true)
    (hinv : LightInv st) : LightInv (step e st) := by
  cases e with
  | addLight t =>
    show LightInv (LightController.addLight t st)
    obtain ⟨hL, hS⟩ := addLight_state t st
    intro p hp
    rw [hL] at hp
    rcases SMap.mem_set _ _ _ _ hp with hnew | hold
    · subst hnew
      refine ⟨kindInv_newLightData t _, ?_, ?_⟩
      · rw [newLightData_type]
        exact lightId_head t _
      · intro l hl
        rw [hS, SMap.get_set_self] at hl
        rw [← Option.some.inj hl, newLight_kind, newLightData_type]
    · obtain ⟨hk, hh, hc⟩ := hinv p hold
      refine ⟨hk, hh, ?_⟩
      intro l hl
      rw [hS] at hl
      by_cases he : p.1 = lightId t (st.lightCounter.get t + 1)
      · rw [he, SMap.get_set_self] at hl
        have hl2 : l = LightController.newLight t := (Option.some.inj hl).symm
        have hhead : p.2.type.headChar = t.headChar := by
          have := hh
          rw [he, lightId_head] at this
          exact (Option.some.inj this).symm
        rw [hl2, newLight_kind]
        exact (LightType.headChar_inj _ _ hhead).symm
      · rw [SMap.get_set_ne _ _ _ _ he] at hl
        exact hc l hl
  | removeLight i =>
    cases hm : st.lights.get i with
    | none =>
      have hstep : step (.removeLight i) st = st := by
        simp [step, LightController.removeLight, hm]
      rw [hstep]
      exact hinv
    | some md =>
      intro p hp
      simp only [step, LightController.removeLight, hm] at hp ⊢
      obtain ⟨hmem, hne⟩ := SMap.mem_del _ _ _ hp
      obtain ⟨hk, hh, hc⟩ := hinv p hmem
      refine ⟨hk, hh, ?_⟩
      intro l hl
      rw [removeLight_get _ i p.1 hne] at hl
      apply hc
      cases hhelp : md.helper
      · rw [hhelp] at hl
        simpa using hl
      · rw [hhelp] at hl
        rw [show (if true = true then (st.sm.removeObject (i ++ "_helper")).1 else st.sm) =
          (st.sm.removeObject (i ++ "_helper")).1 from rfl, removeObject_lights] at hl
        exact hl
  | lightColorEdit i cnew =>
    cases h1 : st.sm.getLight i with
    | none =>
      have hstep : step (.lightColorEdit i cnew) st = st := by
        cases h2 : st.lights.get i <;>
          simp [step, LightController.updateLightColor, h1, h2]
      rw [hstep]
      exact hinv
    | some light =>
      cases h2 : st.lights.get i with
      | none =>
        have hstep : step (.lightColorEdit i cnew) st = st := by
          simp [step, LightController.updateLightColor, h1, h2]
        rw [hstep]
        exact hinv
      | some md =>
        have h1g : st.sm.lights.get i = some light := h1
        intro p hp
        simp only [step, LightController.updateLightColor, h1, h2] at hp ⊢
        rcases SMap.mem_set _ _ _ _ hp with hnew | hold
        · subst hnew
          obtain ⟨hk, hh, hc⟩ := hinv (i, md) (SMap.get_mem _ _ _ h2)
          refine ⟨hk, hh, ?_⟩
          intro l hl
          rw [SMap.get_set_self] at hl
          rw [← Option.some.inj hl]
          exact hc light h1g
        · obtain ⟨hk, hh, hc⟩ := hinv p hold
          refine ⟨hk, hh, ?_⟩
          intro l hl
          by_cases he : p.1 = i
          · rw [he, SMap.get_set_self] at hl
            rw [← Option.some.inj hl]
            have := hc light (he ▸ h1g)
            exact this
          · rw [SMap.get_set_ne _ _ _ _ he] at hl
            exact hc l hl
  | lightIntensityEdit i v =>
    cases h1 : st.sm.getLight i with
    | none =>
      have hstep : step (.lightIntensityEdit i v) st = st := by
        cases h2 : st.lights.get i <;>
          simp [step, LightController.updateLightIntensity, h1, h2]
      rw [hstep]
      exact hinv
    | some light =>
      cases h2 : st.lights.get i with
      | none =>
        have hstep : step (.lightIntensityEdit i v) st = st := by
          simp [step, LightController.updateLightIntensity, h1, h2]
        rw [hstep]
        exact hinv
      | some md =>
        have h1g : st.sm.lights.get i = some light := h1
        intro p hp
        simp only [step, LightController.updateLightIntensity, h1, h2] at hp ⊢
        rcases SMap.mem_set _ _ _ _ hp with hnew | hold
        · subst hnew
          obtain ⟨hk, hh, hc⟩ := hinv (i, md) (SMap.get_mem _ _ _ h2)
          refine ⟨hk, hh, ?_⟩
          intro l hl
          rw [SMap.get_set_self] at hl
          rw [← Option.some.inj hl]
          exact hc light h1g
        · obtain ⟨hk, hh, hc⟩ := hinv p hold
          refine ⟨hk, hh, ?_⟩
          intro l hl
          by_cases he : p.1 = i
          · rw [he, SMap.get_set_self] at hl
            rw [← Option.some.inj hl]
            exact hc light (he ▸ h1g)
          · rw [SMap.get_set_ne _ _ _ _ he] at hl
            exact hc l hl
  | lightPositionEdit i pos =>
    cases h1 : st.sm.getLight i with
    | none =>
      have hstep : step (.lightPositionEdit i pos) st = st := by
        cases h2 : st.lights.get i <;>
          simp [step, LightController.updateLightPosition, h1, h2]
      rw [hstep]
      exact hinv
    | some light =>
      cases h2 : st.lights.get i with
      | none =>
        have hstep : step (.lightPositionEdit i pos) st = st := by
          simp [step, LightController.updateLightPosition, h1, h2]
        rw [hstep]
        exact hinv
      | some md =>
        have h1g : st.sm.lights.get i = some light := h1
        have hgate : i.data.head? ≠ some 'a' := by
          simpa [uiEmittable] using hui
        obtain ⟨hk0, hh0, hc0⟩ := hinv (i, md) (SMap.get_mem _ _ _ h2)
        have hamb : md.type ≠ .ambient := by
          intro hab
          apply hgate
          rw [hh0, hab]
          rfl
        intro p hp
        simp only [step, LightController.updateLightPosition, h1, h2] at hp ⊢
        rcases SMap.mem_set _ _ _ _ hp with hnew | hold
        · subst hnew
          refine ⟨⟨fun hab => absurd hab hamb, hk0.2.1, hk0.2.2⟩, hh0, ?_⟩
          intro l hl
          rw [SMap.get_set_self] at hl
          rw [← Option.some.inj hl]
          exact hc0 light h1g
        · obtain ⟨hk, hh, hc⟩ := hinv p hold
          refine ⟨hk, hh, ?_⟩
          intro l hl
          by_cases he : p.1 = i
          · rw [he, SMap.get_set_self] at hl
            rw [← Option.some.inj hl]
            exact hc light (he ▸ h1g)
          · rw [SMap.get_set_ne _ _ _ _ he] at hl
            exact hc l hl
  | lightShadowEdit i b =>
    cases h1 : st.sm.getLight i with
    | none =>
      have hstep : step (.lightShadowEdit i b) st = st := by
        cases h2 : st.lights.get i <;>
          simp [step, LightController.updateShadowCasting, h1, h2]
      rw [hstep]
      exact hinv
    | some light =>
      cases h2 : st.lights.get i with
      | none =>
        have hstep : step (.lightShadowEdit i b) st = st := by
          simp [step, LightController.updateShadowCasting, h1, h2]
        rw [hstep]
        exact hinv
      | some md =>
        have h1g : st.sm.lights.get i = some light := h1
        by_cases hkind : light.kind = .directional ∨ light.kind = .spot
        · obtain ⟨hk0, hh0, hc0⟩ := hinv (i, md) (SMap.get_mem _ _ _ h2)
          have htype : light.kind = md.type := hc0 light h1g
          intro p hp
          simp only [step, LightController.updateShadowCasting, h1, h2, hkind,
            if_true] at hp ⊢
          rcases SMap.mem_set _ _ _ _ hp with hnew | hold
          · subst hnew
            refine ⟨⟨?_, ?_, ?_⟩, hh0, ?_⟩
            · intro hab
              rw [← htype] at hab
              rcases hkind with h | h <;> rw [h] at hab <;> exact absurd hab (by decide)
            · intro _
              exact Option.noConfusion
            · intro hab
              rw [← htype] at hab
              rcases hkind with h | h <;> rw [h] at hab <;> exact absurd hab (by decide)
            · intro l hl
              rw [SMap.get_set_self] at hl
              rw [← Option.some.inj hl]
              exact htype
          · obtain ⟨hk, hh, hc⟩ := hinv p hold
            refine ⟨hk, hh, ?_⟩
            intro l hl
            by_cases he : p.1 = i
            · rw [he, SMap.get_set_self] at hl
              rw [← Option.some.inj hl]
              exact hc light (he ▸ h1g)
            · rw [SMap.get_set_ne _ _ _ _ he] at hl
              exact hc l hl
        · have hstep : step (.lightShadowEdit i b) st = st := by
            simp [step, LightController.updateShadowCasting, h1, h2, hkind]
          rw [hstep]
          exact hinv
  | addObject t rx rz =>
    exact lightInv_of_frame st _ rfl rfl hinv
  | removeObject i =>
    exact lightInv_of_frame st _ (removeObject_light_frame i st).1
      (removeObject_light_frame i st).2 hinv
  | objColorEdit i c =>
    exact lightInv_of_frame st _ (updateObjectColor_light_frame i c st).1
      (updateObjectColor_light_frame i c st).2 hinv
  | objRoughnessEdit i v =>
    exact lightInv_of_frame st _ (updateObjectRoughness_light_frame i v st).1
      (updateObjectRoughness_light_frame i v st).2 hinv
  | objMetalnessEdit i v =>
    exact lightInv_of_frame st _ (updateObjectMetalness_light_frame i v st).1
      (updateObjectMetalness_light_frame i v st).2 hinv
  | objPositionEdit i a v =>
    exact lightInv_of_frame st _ (positionEdit_light_frame i a v st).1
      (positionEdit_light_frame i a v st).2 hinv
  | objRotationEdit i a d =>
    exact lightInv_of_frame st _ (rotationEdit_light_frame i a d st).1
      (rotationEdit_light_frame i a d st).2 hinv
  | objScaleEdit i a v =>
    exact lightInv_of_frame st _ (scaleEdit_light_frame i a v st).1
      (scaleEdit_light_frame i a v st).2 hinv
  | modelUpload u cen sz =>
    exact lightInv_of_frame st _ rfl rfl hinv

/-- The invariant holds along every UI-emittable run. -/
theorem lightInv_runFrom (evs : List Event) : ∀ st : AppState,
    (∀ e ∈ evs, uiEmittable e = true) → LightInv st → LightInv (runFrom st evs) := by
  induction evs with
  | nil => exact fun st _ h => h
  | cons e evs ih =>
    intro st hui h
    exact ih (step e st) (fun e2 he2 => hui e2 (List.mem_cons_of_mem e he2))
      (lightInv_step e st (hui e (List.mem_cons_self e evs)) h)

/-- Claim C7: along every sequence of UI-emittable events from the initial
state, every reachable light metadata record satisfies the kind invariant:
ambient records carry neither position nor shadow data, directional and
spot records always carry a shadow-casting flag, point records never do. -/
theorem light_kind_invariant (evs : List Event)
    (hui : ∀ e ∈ evs, uiEmittable e = true) :
    ∀ p ∈ (runEvents evs).lights, kindInv p.2 :=
  fun p hp => (lightInv_runFrom evs initialState hui
    (fun q hq => absurd hq (List.not_mem_nil q)) p hp).1

/-- Witness for `light_kind_invariant`: one light of each kind plus a
position edit and a shadow toggle on the directional one. -/
theorem light_kind_invariant_witness :
    let evs : List Event := [.addLight .directional,
      .lightPositionEdit "directional_1" ⟨1, 2, 3⟩,
      .lightShadowEdit "directional_1" false, .addLight .ambient,
      .addLight .point, .addLight .spot]
    (∀ e ∈ evs, uiEmittable e = true) ∧
    ∀ p ∈ (runEvents evs).lights, kindInv p.2 := by
  intro evs
  exact ⟨by decide, light_kind_invariant evs (by decide)⟩

end Sandbox
